import Mathlib

/-!
Shallow embedding of the options-insight pipeline (src/finnhub.js and
src/gemini.js) together with proofs about its behaviour.

Modelling conventions:
* JS numbers are modelled as exact rationals where only comparisons occur, and
  as integers for timestamps (milliseconds) and for the doubled quality-score
  arithmetic (all weight products are multiples of one half).
* JS `undefined` / `null` field values are modelled with `Option`; JS
  truthiness tests on numbers treat `none` and `some 0` as falsy.
* Asynchronous network calls are modelled by passing the outcome of each fetch
  (or the already-fetched data) as an explicit argument.
-/

namespace OptionsInsight

/-- Outcome of one `fetch` call as observed by `makeRequest` in
`src/finnhub.js`: a network-level rejection, or an HTTP response that is
either ok (2xx, with the parsed JSON body) or a failure status. -/
inductive FetchOutcome (β : Type) where
  | netError (msg : String)
  | success (body : β)
  | httpError (status : Nat) (statusText : String)
  deriving DecidableEq

/-- Error with which `makeRequest` can reject: the message of the last network
error, the error built from an HTTP failure status
(JS string `Finnhub API error: <status> <statusText>`), or the fallback
`Finnhub API request failed` error thrown when no error was recorded. -/
inductive RequestError where
  | network (msg : String)
  | httpStatus (status : Nat) (statusText : String)
  | requestFailed
  deriving DecidableEq

/-- Loop body of `makeRequest` (src/finnhub.js lines 14-47).  `remaining` is
the number of loop iterations still allowed (the JS loop runs for
`attempt = 0 .. retries`, so it starts at `retries + 1`); `attempt` is the JS
loop counter and also counts the fetches issued so far; `lastError` is the JS
`lastError` variable.  Returns the result together with the total number of
fetches issued.  Note that the JS code throws the non-retryable-status error
inside the `try` block, so its own `catch` block catches it and retries it
exactly like a network error whenever attempts remain; the model reproduces
this.  Backoff sleeping and the post-success `this.delay` sleep have no
observable effect on the result and are not modelled; the JSON body is taken
as already parsed. -/
def makeRequestGo {β : Type} (fetches : Nat → FetchOutcome β) (retries : Nat) :
    Nat → Nat → Option RequestError → Except RequestError β × Nat
  | 0, attempt, lastError => (Except.error (lastError.getD RequestError.requestFailed), attempt)
  | remaining + 1, attempt, lastError =>
    match fetches attempt with
    | FetchOutcome.success body => (Except.ok body, attempt + 1)
    | FetchOutcome.httpError status statusText =>
      if (status = 429 ∨ (500 ≤ status ∧ status < 600)) ∧ attempt < retries then
        makeRequestGo fetches retries remaining (attempt + 1) lastError
      else if attempt < retries then
        makeRequestGo fetches retries remaining (attempt + 1)
          (some (RequestError.httpStatus status statusText))
      else
        (Except.error (RequestError.httpStatus status statusText), attempt + 1)
    | FetchOutcome.netError msg =>
      if attempt < retries then
        makeRequestGo fetches retries remaining (attempt + 1) (some (RequestError.network msg))
      else
        (Except.error (RequestError.network msg), attempt + 1)

/-- Model of `makeRequest(endpoint, { retries, baseDelayMs })`: run the attempt
loop from attempt 0 with no recorded error.  The JS default is `retries = 3`. -/
def makeRequest {β : Type} (fetches : Nat → FetchOutcome β) (retries : Nat) :
    Except RequestError β × Nat :=
  makeRequestGo fetches retries (retries + 1) 0 none

/-- Calendar event from the Finnhub earnings calendar.  `date` is the event
date as a timestamp in milliseconds (JS `new Date(event.date)`);
`revenueEstimate` is `none` when the field is absent, and JS treats a present
value of `0` as falsy wherever the field is truth-tested. -/
structure CalendarEvent where
  symbol : String
  date : Int
  revenueEstimate : Option ℚ
  hour : Option String
  deriving DecidableEq

/-- Parsed body of the earnings-calendar endpoint.  `earningsCalendar` is
`none` when the field is absent, `null`, or otherwise falsy. -/
structure CalendarResponse where
  earningsCalendar : Option (List CalendarEvent)
  deriving DecidableEq

/-- Model of `getEarningsCalendar` (src/finnhub.js lines 49-52): issue the
request through `makeRequest` (with the default `retries = 3`) and return
`data.earningsCalendar || []`.  In JS any array, even an empty one, is truthy,
so the `|| []` default fires exactly when the field is absent or falsy, which
the `Option` model folds into `none`. -/
def getEarningsCalendar (fetches : Nat → FetchOutcome CalendarResponse) :
    Except RequestError (List CalendarEvent) × Nat :=
  let r := makeRequest fetches 3
  (r.1.map (fun data => data.earningsCalendar.getD []), r.2)

/-- Revenue-size sub-score of `calculatePrescreenScore` (src/finnhub.js
lines 307-320).  The JS guard is `if (event.revenueEstimate)`, so an absent
estimate and a present estimate of `0` both take the neutral `score += 5`
branch. -/
def prescreenRevenueScore : Option ℚ → Nat
  | some r =>
    if r = 0 then 5
    else if r > 10000000000 then 10
    else if r > 1000000000 then 7
    else if r > 100000000 then 5
    else 3
  | none => 5

/-- Model of `calculatePrescreenScore(event, daysToEarnings)` (src/finnhub.js
lines 304-340): revenue-size sub-score plus timing sub-score plus
market-session sub-score. -/
def calculatePrescreenScore (event : CalendarEvent) (daysToEarnings : Int) : Nat :=
  let revScore := prescreenRevenueScore event.revenueEstimate
  let timingScore : Nat :=
    if 7 ≤ daysToEarnings ∧ daysToEarnings ≤ 21 then 8
    else if 3 ≤ daysToEarnings ∧ daysToEarnings ≤ 30 then 5
    else 2
  let sessionScore : Nat :=
    if event.hour = some "amc" then 2
    else if event.hour = some "bmo" then 1
    else 0
  revScore + timingScore + sessionScore

/-- Technical indicators attached to the volatility snapshot. -/
structure TechnicalIndicators where
  rsi : Option ℚ
  deriving DecidableEq

/-- Per-symbol volatility snapshot returned by the external volatility
gateway (`real-volatility.js`, out of scope); only the fields read by
`calculateQualityScore` are modelled. -/
structure VolatilityData where
  historicalVolatility : Option ℚ
  volatilityScore : Option ℚ
  optionsVolume : Option ℚ
  technicalIndicators : Option TechnicalIndicators
  deriving DecidableEq

/-- Calendar event enriched at prescreen time with `daysToEarnings` and
`prescreenScore`. -/
structure Opportunity extends CalendarEvent where
  daysToEarnings : Int
  prescreenScore : Nat
  deriving DecidableEq

/-- Opportunity further enriched with the volatility snapshot and the derived
scores. -/
structure EnhancedOpportunity extends Opportunity where
  volatilityData : Option VolatilityData
  volatilityScore : ℚ
  qualityScore : Int
  deriving DecidableEq

/-- JS `x || y` on an optionally-present number `x`: the fallback `y` is used
when `x` is absent or `0` (falsy). -/
def jsOrQ (x : Option ℚ) (y : ℚ) : ℚ :=
  match x with
  | some v => if v = 0 then y else v
  | none => y

/-- Model of `calculateQualityScore(opportunity)` (src/finnhub.js
lines 182-253).  The JS function accumulates weight products that are
multiples of one half (for example `25 * 0.7` and `15 * 0.5`), so the model
computes twice the score as an exact integer and then applies `Math.round`:
for a value `k / 2`, `Math.round(k / 2) = floor(k / 2 + 1 / 2)`, which equals
`(k + 1).fdiv 2`. -/
def calculateQualityScore (opp : EnhancedOpportunity) : Int :=
  let twiceBase : Int := 20
  let twiceData : Int :=
    match opp.volatilityData with
    | some v =>
      20 +
        (match v.historicalVolatility with
         | some hv => if hv > 0 then 10 else 0
         | none => 0)
    | none => 0
  let volScore : ℚ :=
    jsOrQ (opp.volatilityData.bind VolatilityData.volatilityScore)
      (jsOrQ (some opp.volatilityScore) 0)
  let twiceVol : Int :=
    if volScore > 70 then 60
    else if volScore > 50 then 48
    else if volScore > 30 then 36
    else if volScore > 10 then 24
    else 12
  let d := opp.daysToEarnings
  let twiceTiming : Int :=
    if 14 ≤ d ∧ d ≤ 21 then 50
    else if 10 ≤ d ∧ d ≤ 28 then 35
    else if 5 ≤ d ∧ d ≤ 35 then 20
    else 10
  let optionsVolume : ℚ := jsOrQ (opp.volatilityData.bind VolatilityData.optionsVolume) 0
  let twiceLiquidity : Int :=
    if optionsVolume > 10000 then 40
    else if optionsVolume > 5000 then 28
    else if optionsVolume > 1000 then 16
    else if optionsVolume > 0 then 8
    else 0
  let rsi : Option ℚ :=
    (opp.volatilityData.bind VolatilityData.technicalIndicators).bind TechnicalIndicators.rsi
  let twiceTechnical : Int :=
    match rsi with
    | some r =>
      if r = 0 then 0
      else if r > 70 ∨ r < 30 then 30
      else if r > 60 ∨ r < 40 then 15
      else 6
    | none => 0
  let twiceTotal :=
    twiceBase + twiceData + twiceVol + twiceTiming + twiceLiquidity + twiceTechnical
  (twiceTotal + 1).fdiv 2

/-- Milliseconds per day, the JS constant `1000 * 60 * 60 * 24`. -/
def msPerDay : Int := 86400000

/-- Ceiling of the exact division `a / b` for positive `b`, as computed by
JS `Math.ceil((a) / (b))` on exact values. -/
def ceilDiv (a b : Int) : Int := -((-a).fdiv b)

/-- JS `Math.ceil((new Date(event.date) - now) / (1000 * 60 * 60 * 24))`. -/
def daysToEarningsFrom (nowMs : Int) (e : CalendarEvent) : Int :=
  ceilDiv (e.date - nowMs) msPerDay

/-- Time-window predicate of the pipeline (src/finnhub.js lines 113-117):
keep the event when `1 <= daysToEarnings <= 45`, days measured from the
pipeline's `fromDate`. -/
def inTimeWindow (nowMs : Int) (e : CalendarEvent) : Bool :=
  decide (1 ≤ daysToEarningsFrom nowMs e ∧ daysToEarningsFrom nowMs e ≤ 45)

/-- Descending-by-`prescreenScore` comparator, JS
`(a, b) => b.prescreenScore - a.prescreenScore`. -/
def prescreenLe (a b : Opportunity) : Bool :=
  decide (b.prescreenScore ≤ a.prescreenScore)

/-- Descending-by-`qualityScore` comparator, JS
`(a, b) => b.qualityScore - a.qualityScore`. -/
def qualityLe (a b : EnhancedOpportunity) : Bool :=
  decide (b.qualityScore ≤ a.qualityScore)

/-- Insert an element into a list, placing it before the first element `b`
with `le a b`; helper for `jsSort`. -/
def jsSortInsert {α : Type} (le : α → α → Bool) (a : α) : List α → List α
  | [] => [a]
  | b :: bs => if le a b then a :: b :: bs else b :: jsSortInsert le a bs

/-- Stable sort modelling JS `Array.prototype.sort` with a consistent
comparator: for such a comparator the JS sort produces the unique stable
sorted permutation, which this insertion sort also produces. -/
def jsSort {α : Type} (le : α → α → Bool) : List α → List α
  | [] => []
  | a :: as => jsSortInsert le a (jsSort le as)

/-- Model of the pipeline `getEarningsOpportunities` (src/finnhub.js
lines 82-177) from the point where the calendar data is available.  The
initial fetch and its fatal-error path deliver `calendar`
(`data.earningsCalendar || []`); `nowMs` is the `fromDate` timestamp used by
the time-window filter and `now2Ms` the second `new Date()` taken at
prescreen time; `bulkVolatility` is the per-symbol lookup built from the
external `getBulkVolatilityAnalysis` result (the JS map construction skips
`null` entries and `volatilityMap.get(symbol) || null` restores them, which is
the identity under the `Option` model); `calculateVolatilityScore` is the
external scoring function imported from `real-volatility.js` (out of scope,
kept abstract). -/
def getEarningsOpportunities (stockUniverse : List String) (nowMs now2Ms : Int)
    (calendar : List CalendarEvent)
    (bulkVolatility : String → Option VolatilityData)
    (calculateVolatilityScore : Option VolatilityData → ℚ) :
    List EnhancedOpportunity :=
  let universeFiltered := calendar.filter (fun e => stockUniverse.contains e.symbol)
  let timeWindowFiltered := universeFiltered.filter (inTimeWindow nowMs)
  if timeWindowFiltered.isEmpty then [] else
  let prescreened :=
    (jsSort prescreenLe (timeWindowFiltered.map (fun e =>
      let d := daysToEarningsFrom now2Ms e
      ({ toCalendarEvent := e, daysToEarnings := d,
         prescreenScore := calculatePrescreenScore e d } : Opportunity)))).take 8
  let enhancedOpportunities := prescreened.map (fun o =>
    let volatility := bulkVolatility o.symbol
    let enhanced : EnhancedOpportunity :=
      { toOpportunity := o, volatilityData := volatility,
        volatilityScore := calculateVolatilityScore volatility,
        qualityScore := 0 }
    { enhanced with qualityScore := calculateQualityScore enhanced })
  let qualifiedOpportunities :=
    jsSort qualityLe
      ((enhancedOpportunities.filter (fun o => o.volatilityData.isSome)).filter
        (fun o => decide (5 < o.qualityScore)))
  qualifiedOpportunities.take 5

/-- Outcome of the single VIX quote fetch made by `getMarketContext`: a
network error (caught by the surrounding `try`), a non-ok response, or an ok
response whose body may or may not carry the `c` field. -/
inductive QuoteFetchOutcome where
  | netError
  | httpFail
  | success (c : Option ℚ)
  deriving DecidableEq

/-- Market context returned by `getMarketContext`.  The JS `lastUpdated`
timestamp is not modelled. -/
structure MarketContext where
  vix : Option ℚ
  marketRegime : String
  deriving DecidableEq

/-- Regime classification of `getMarketContext` (src/finnhub.js
lines 283-286).  When `c` is absent, every JS comparison against `undefined`
is false and the initial value `normal` survives. -/
def classifyRegime : Option ℚ → String
  | some v =>
    if v > 30 then "high-volatility"
    else if v > 20 then "elevated-volatility"
    else if v < 15 then "low-volatility"
    else "normal"
  | none => "normal"

/-- Model of `getMarketContext` (src/finnhub.js lines 269-298): any fetch
error or non-ok response yields the unknown context, otherwise the quote value
is classified. -/
def getMarketContext : QuoteFetchOutcome → MarketContext
  | QuoteFetchOutcome.netError => { vix := none, marketRegime := "unknown" }
  | QuoteFetchOutcome.httpFail => { vix := none, marketRegime := "unknown" }
  | QuoteFetchOutcome.success c => { vix := c, marketRegime := classifyRegime c }

/-- Whitespace class of the JS regex `\s` and of `String.prototype.trim`,
restricted to the ASCII characters that can occur in the modelled replies. -/
def isJsWS (c : Char) : Bool :=
  c = ' ' || c = '\t' || c = '\n' || c = '\r' || c = '\x0b' || c = '\x0c'

/-- Case-insensitive character comparison (ASCII case folding), the effect of
the JS regex `i` flag on the ASCII patterns used in `src/gemini.js`. -/
def charCI (a b : Char) : Bool :=
  (if 65 ≤ a.toNat ∧ a.toNat ≤ 90 then a.toNat + 32 else a.toNat) =
    (if 65 ≤ b.toNat ∧ b.toNat ≤ 90 then b.toNat + 32 else b.toNat)

/-- Match a literal pattern case-insensitively at the head of the input,
returning the remaining input on success. -/
def litCI : List Char → List Char → Option (List Char)
  | [], s => some s
  | _ :: _, [] => none
  | p :: ps, c :: cs => if charCI p c then litCI ps cs else none

/-- Numeric value of a digit run, the effect of JS `parseInt` on a `\d+`
capture. -/
def natOfDigits (ds : List Char) : Nat :=
  ds.foldl (fun acc c => acc * 10 + (c.toNat - 48)) 0

/-- First-match regex search: try the at-position matcher at every start
index in order, as the JS regex engine does for an unanchored pattern. -/
def regexSearch {α : Type} (p : List Char → Option α) : List Char → Option α
  | [] => p []
  | c :: rest =>
    match p (c :: rest) with
    | some a => some a
    | none => regexSearch p rest

/-- Tail of the sentiment patterns, `\s*(\d+)`: skip whitespace greedily and
capture a nonempty digit run. -/
def matchDigitsAfterWS (s : List Char) : Option Nat :=
  let r := s.dropWhile isJsWS
  let ds := r.takeWhile Char.isDigit
  if ds.isEmpty then none else some (natOfDigits ds)

/-- At-position matcher for the first sentiment pattern
`\*\*SENTIMENT SCORE:\*\*\s*(\d+)` with the `i` flag. -/
def sentStrict (s : List Char) : Option Nat :=
  (litCI "**SENTIMENT SCORE:**".data s).bind matchDigitsAfterWS

/-- At-position matcher for the second sentiment pattern
`SENTIMENT SCORE:\s*(\d+)` with the `i` flag. -/
def sentPlain (s : List Char) : Option Nat :=
  (litCI "SENTIMENT SCORE:".data s).bind matchDigitsAfterWS

/-- At-position matcher for the third sentiment pattern
`sentiment[^:]*:\s*(\d+)` with the `i` flag: `[^:]*` cannot cross a colon, so
the colon matched is the first colon after the literal. -/
def sentColon (s : List Char) : Option Nat :=
  (litCI "sentiment".data s).bind fun r =>
    match r.dropWhile (fun c => c != ':') with
    | ':' :: r2 => matchDigitsAfterWS r2
    | _ => none

/-- At-position matcher for the fourth sentiment pattern
`sentiment[^0-9]*(\d+)` with the `i` flag: skip to the first digit after the
literal and capture the digit run. -/
def sentLoose (s : List Char) : Option Nat :=
  (litCI "sentiment".data s).bind fun r =>
    let r2 := r.dropWhile (fun c => !c.isDigit)
    let ds := r2.takeWhile Char.isDigit
    if ds.isEmpty then none else some (natOfDigits ds)

/-- Sentiment-score extraction of `parseAnalysisResponse` (src/gemini.js
lines 228-242): the four patterns are tried in order, each over the whole
text, and the first match wins. -/
def extractSentiment (s : List Char) : Option Nat :=
  match regexSearch sentStrict s with
  | some n => some n
  | none =>
    match regexSearch sentPlain s with
    | some n => some n
    | none =>
      match regexSearch sentColon s with
      | some n => some n
      | none => regexSearch sentLoose s

/-- At-position matcher for the alternation
`(STRONGLY CONSIDER|NEUTRAL|STAY AWAY)` with the `i` flag, alternatives tried
left to right.  The JS code upper-cases the capture, and upper-casing any
case-insensitive match of these letter-and-space phrases yields the canonical
phrase, so the canonical phrase is returned directly. -/
def recAlternatives (s : List Char) : Option String :=
  if (litCI "STRONGLY CONSIDER".data s).isSome then some "STRONGLY CONSIDER"
  else if (litCI "NEUTRAL".data s).isSome then some "NEUTRAL"
  else if (litCI "STAY AWAY".data s).isSome then some "STAY AWAY"
  else none

/-- At-position matcher for `\*\*RECOMMENDATION:\*\*\s*(...)` with the `i`
flag. -/
def recStrict (s : List Char) : Option String :=
  (litCI "**RECOMMENDATION:**".data s).bind fun r =>
    recAlternatives (r.dropWhile isJsWS)

/-- At-position matcher for `RECOMMENDATION:\s*(...)` with the `i` flag. -/
def recPlain (s : List Char) : Option String :=
  (litCI "RECOMMENDATION:".data s).bind fun r =>
    recAlternatives (r.dropWhile isJsWS)

/-- Recommendation extraction of `parseAnalysisResponse` (src/gemini.js
lines 245-256): three patterns tried in order. -/
def extractRecommendation (s : List Char) : Option String :=
  match regexSearch recStrict s with
  | some v => some v
  | none =>
    match regexSearch recPlain s with
    | some v => some v
    | none => regexSearch recAlternatives s

/-- Maximal run of non-asterisk characters, the deterministic reading of the
greedy `[^*]+` followed by `\*\*`. -/
def takeNonStar (s : List Char) : List Char :=
  s.takeWhile (fun c => c != '*')

/-- Lookahead of the strategies regex,
`(?=\d\.\s*\*\*|\*\*POSITION SIZING|\n\n|$)` with the `i` flag. -/
def strategyStop (s : List Char) : Bool :=
  (match s with
   | c :: '.' :: r =>
     c.isDigit &&
       (match r.dropWhile isJsWS with
        | '*' :: '*' :: _ => true
        | _ => false)
   | _ => false) ||
  (litCI "**POSITION SIZING".data s).isSome ||
  (match s with
   | '\n' :: '\n' :: _ => true
   | _ => false) ||
  s.isEmpty

/-- Lazy `[\s\S]*?` capture: accumulate characters until the first position
where `stop` holds (end of input always stops), returning the capture and the
remaining input. -/
def lazyCapture (stop : List Char → Bool) : List Char → List Char × List Char
  | [] => ([], [])
  | c :: r =>
    if stop (c :: r) then ([], c :: r)
    else
      let p := lazyCapture stop r
      (c :: p.1, p.2)

/-- At-position matcher for one strategy item,
`\d\.\s*\*\*([^*]+)\*\*([\s\S]*?)(?=...)`, returning the full matched text
and the remaining input after the match. -/
def matchStrategyAt (s : List Char) : Option (List Char × List Char) :=
  match s with
  | c :: '.' :: r1 =>
    if c.isDigit then
      let ws := r1.takeWhile isJsWS
      match r1.dropWhile isJsWS with
      | '*' :: '*' :: r2 =>
        let nm := takeNonStar r2
        if nm.isEmpty then none
        else
          match r2.drop nm.length with
          | '*' :: '*' :: r3 =>
            let cap := lazyCapture strategyStop r3
            some (c :: '.' :: (ws ++ ([ '*', '*' ] ++ (nm ++ ([ '*', '*' ] ++ cap.1)))), cap.2)
          | _ => none
      | _ => none
    else none
  | _ => none

/-- Scanner for the global strategies regex: find the next match, emit its
text, and continue after it (all matches are nonempty, so the JS engine never
needs its empty-match advance).  The fuel starts at the input length, which
bounds the number of iterations because every iteration consumes at least one
character. -/
def strategyScanGo : Nat → List Char → List (List Char)
  | 0, _ => []
  | fuel + 1, s =>
    match matchStrategyAt s with
    | some (m, rest) => m :: strategyScanGo fuel rest
    | none =>
      match s with
      | [] => []
      | _ :: r => strategyScanGo fuel r

/-- All matches of the strategies regex (src/gemini.js line 259). -/
def allStrategyMatches (s : List Char) : List (List Char) :=
  strategyScanGo s.length s

/-- At-position matcher for `\*\*([^*]+)\*\*` (no flags), the inner
strategy-name regex. -/
def firstBoldAt (s : List Char) : Option (List Char) :=
  match s with
  | '*' :: '*' :: r =>
    let nm := takeNonStar r
    if nm.isEmpty then none
    else
      match r.drop nm.length with
      | '*' :: '*' :: _ => some nm
      | _ => none
  | _ => none

/-- First match of `\*\*([^*]+)\*\*` in the text, JS
`match.match(...)?.[1]`. -/
def firstBold (s : List Char) : Option (List Char) :=
  regexSearch firstBoldAt s

/-- JS `match.replace(/\*\*[^*]+\*\*/, '')`: delete the first occurrence of a
bold run. -/
def removeFirstBold : List Char → List Char
  | [] => []
  | c :: r =>
    match firstBoldAt (c :: r) with
    | some nm => (c :: r).drop (nm.length + 4)
    | none => c :: removeFirstBold r

/-- JS `String.prototype.trim`. -/
def jsTrim (s : List Char) : List Char :=
  ((s.dropWhile isJsWS).reverse.dropWhile isJsWS).reverse

/-- One suggested options strategy as parsed from the reply. -/
structure Strategy where
  name : String
  details : String
  deriving DecidableEq

/-- Turn one full strategy match into a `Strategy` (src/gemini.js
lines 261-269): the bolded name is extracted and trimmed, and the JS guard
`if (strategyName)` drops a match whose trimmed name is the empty string
(falsy) or whose inner regex found no bold run. -/
def strategyOfMatch (m : List Char) : Option Strategy :=
  match firstBold m with
  | some nm =>
    let t := jsTrim nm
    if t.isEmpty then none
    else some { name := String.mk t, details := String.mk (jsTrim (removeFirstBold m)) }
  | none => none

/-- Strategies extraction of `parseAnalysisResponse`. -/
def extractStrategies (s : List Char) : List Strategy :=
  (allStrategyMatches s).filterMap strategyOfMatch

/-- At-position test for the section lookahead `\*\*[A-Z\s]+:` with the `i`
flag: two asterisks, a nonempty run of letters and whitespace, then a colon
(the colon must end the maximal run because it is outside the class). -/
def sectionStopAt (s : List Char) : Bool :=
  match s with
  | '*' :: '*' :: r =>
    let run := r.takeWhile (fun c => c.isAlpha || isJsWS c)
    if run.isEmpty then false
    else
      match r.drop run.length with
      | ':' :: _ => true
      | _ => false
  | _ => false

/-- Full section lookahead `(?=\*\*[A-Z\s]+:|$)`. -/
def sectionStopOrEnd (s : List Char) : Bool :=
  sectionStopAt s || s.isEmpty

/-- Section extraction `\*\*<HEADING>:\*\*\s*([\s\S]*?)(?=\*\*[A-Z\s]+:|$)`
with the `i` flag (src/gemini.js lines 273-286): search for the heading, skip
whitespace greedily, then capture lazily up to the next bold heading or the
end of the text. -/
def extractSection (heading : String) (s : List Char) : Option (List Char) :=
  regexSearch
    (fun t =>
      (litCI heading.data t).map
        (fun r => (lazyCapture sectionStopOrEnd (r.dropWhile isJsWS)).1))
    s

/-- Analysis object produced by `parseAnalysisResponse` (src/gemini.js
lines 214-293). -/
structure Analysis where
  symbol : String
  sentimentScore : Option Int
  recommendation : String
  strategies : List Strategy
  volatilityAssessment : String
  riskFactors : String
  positionSizing : String
  rawAnalysis : String
  deriving DecidableEq

/-- Model of `parseAnalysisResponse(rawResponse, opportunity)`: every field is
extracted independently; a failed extraction leaves the default (`null`
sentiment, `NEUTRAL` recommendation, empty list or string). -/
def parseAnalysisResponse (rawResponse : List Char) (symbol : String) : Analysis :=
  { symbol := symbol
    sentimentScore := (extractSentiment rawResponse).map Int.ofNat
    recommendation := (extractRecommendation rawResponse).getD "NEUTRAL"
    strategies := extractStrategies rawResponse
    volatilityAssessment :=
      String.mk (jsTrim ((extractSection "**VOLATILITY ASSESSMENT:**" rawResponse).getD []))
    riskFactors :=
      String.mk (jsTrim ((extractSection "**RISK FACTORS:**" rawResponse).getD []))
    positionSizing :=
      String.mk (jsTrim ((extractSection "**POSITION SIZING:**" rawResponse).getD []))
    rawAnalysis := String.mk rawResponse }

/-- At-position test for the batch-splitting lookahead.  The JS pattern source
is `(?===\s*[A-Z]+\s*===|$)`, so after the `(?=` opener the lookahead proper
is `==\s*[A-Z]+\s*===`: only two leading equals signs, then whitespace, a
nonempty letter run (`i` flag: either case), whitespace, and three equals
signs. -/
def batchStopAt (s : List Char) : Bool :=
  match s with
  | '=' :: '=' :: r =>
    let r1 := r.dropWhile isJsWS
    let run := r1.takeWhile Char.isAlpha
    if run.isEmpty then false
    else
      match (r1.drop run.length).dropWhile isJsWS with
      | '=' :: '=' :: '=' :: _ => true
      | _ => false
  | _ => false

/-- Full batch lookahead including the `|$` alternative. -/
def batchStopOrEnd (s : List Char) : Bool :=
  batchStopAt s || s.isEmpty

/-- Per-symbol slice extraction of `parseBatchResponse` (src/gemini.js
line 189): first match of
`===\s*<symbol>\s*===([\s\S]*?)(?===\s*[A-Z]+\s*===|$)` with the `i` flag,
returning the captured group. -/
def findSymbolSection (raw : List Char) (symbol : String) : Option (List Char) :=
  regexSearch
    (fun t =>
      (litCI "===".data t).bind fun r1 =>
        (litCI symbol.data (r1.dropWhile isJsWS)).bind fun r2 =>
          match r2.dropWhile isJsWS with
          | '=' :: '=' :: '=' :: r3 => some (lazyCapture batchStopOrEnd r3).1
          | _ => none)
    raw

/-- One entry of the batch-analysis result, JS
`{ opportunity, analysis, timestamp }`; the timestamp is not modelled. -/
structure BatchEntry where
  opportunity : EnhancedOpportunity
  analysis : Analysis
  deriving DecidableEq

/-- Model of `parseBatchResponse(rawBatchResponse, opportunities)`
(src/gemini.js lines 183-209): each opportunity is processed independently;
when its delimiter regex matches, the trimmed slice is parsed and pushed,
otherwise the opportunity is dropped with a logged warning. -/
def parseBatchResponse (raw : List Char) (opportunities : List EnhancedOpportunity) :
    List BatchEntry :=
  opportunities.filterMap (fun opp =>
    (findSymbolSection raw opp.symbol).map (fun slice =>
      { opportunity := opp, analysis := parseAnalysisResponse (jsTrim slice) opp.symbol }))

/-- Model of the per-subject fallback loop of `generateTradingIdeas`
(src/gemini.js lines 37-52): `singleAnalysis opp` is the outcome of
`generateSingleAnalysis` for that opportunity, with `none` covering both a
`null` return (its internal catch) and a thrown error (the loop's catch,
which continues with the other opportunities). -/
def fallbackAnalyses (singleAnalysis : EnhancedOpportunity → Option Analysis)
    (opportunities : List EnhancedOpportunity) : List (EnhancedOpportunity × Analysis) :=
  opportunities.filterMap (fun opp => (singleAnalysis opp).map (fun a => (opp, a)))

/-- JS truthiness of `analysis.sentimentScore`: absent (`null`) and `0` are
falsy. -/
def jsTruthySentiment : Option Int → Bool
  | some v => v != 0
  | none => false

/-- Result of `validateAnalysis`. -/
structure ValidationResult where
  isValid : Bool
  issues : List String
  deriving DecidableEq

/-- Model of `validateAnalysis(analysis)` (src/gemini.js lines 329-356): the
four independent checks push their issues in program order and `isValid` is
the emptiness of the issue list.  The model's `Analysis` always carries a
strategies list, which matches every caller (the JS `!analysis.strategies`
guard is for absent fields). -/
def validateAnalysis (analysis : Analysis) : ValidationResult :=
  let sentimentIssues :=
    if jsTruthySentiment analysis.sentimentScore = false ∨
        analysis.sentimentScore.getD 0 < 1 ∨ 10 < analysis.sentimentScore.getD 0
    then ["Invalid sentiment score"] else []
  let recommendationIssues :=
    if analysis.recommendation = "STRONGLY CONSIDER" ∨
        analysis.recommendation = "NEUTRAL" ∨ analysis.recommendation = "STAY AWAY"
    then [] else ["Invalid recommendation format"]
  let strategyIssues :=
    if analysis.strategies.isEmpty then ["No strategies provided"] else []
  let consistencyIssues :=
    if jsTruthySentiment analysis.sentimentScore = true ∧
        analysis.sentimentScore.getD 0 < 5 ∧ analysis.recommendation = "STRONGLY CONSIDER"
    then ["Inconsistent sentiment and recommendation"] else []
  let issues := sentimentIssues ++ recommendationIssues ++ strategyIssues ++ consistencyIssues
  { isValid := issues.isEmpty, issues := issues }

/-- Fetch sequence in which every attempt returns HTTP 401 Unauthorized. -/
def fetches401 : Nat → FetchOutcome CalendarResponse :=
  fun _ => FetchOutcome.httpError 401 "Unauthorized"

/-- Fetch sequence whose first attempt succeeds with a body lacking the
`earningsCalendar` field. -/
def fetchesCalNone : Nat → FetchOutcome CalendarResponse :=
  fun _ => FetchOutcome.success { earningsCalendar := none }

/-- Event whose revenue estimate is present but zero. -/
def eventRevZero : CalendarEvent :=
  { symbol := "AAA", date := 0, revenueEstimate := some 0, hour := none }

/-- Event whose revenue estimate is one (the smallest-revenue band). -/
def eventRevOne : CalendarEvent :=
  { symbol := "BBB", date := 0, revenueEstimate := some 1, hour := none }

/-- Event with a mid-cap revenue estimate. -/
def eventRevMid : CalendarEvent :=
  { symbol := "CCC", date := 0, revenueEstimate := some 2000000000, hour := none }

/-- Event with a mega-cap revenue estimate. -/
def eventRevLarge : CalendarEvent :=
  { symbol := "DDD", date := 0, revenueEstimate := some 20000000000, hour := none }

/-- Event dated exactly one day after the reference instant zero. -/
def eventOneDayOut : CalendarEvent :=
  { symbol := "EEE", date := 86400000, revenueEstimate := none, hour := none }

/-- Concrete reply text of the parser test. -/
def sampleReply : String :=
  "**SENTIMENT SCORE:** 8\n**RECOMMENDATION:** NEUTRAL\n1. **Iron Condor** - POP: 70%, Risk: $200, Entry: open"

/-- Concrete analysis input of the validator test. -/
def sampleInvalidAnalysis : Analysis :=
  { symbol := "TEST", sentimentScore := some 3, recommendation := "STRONGLY CONSIDER",
    strategies := [], volatilityAssessment := "", riskFactors := "",
    positionSizing := "", rawAnalysis := "" }

/-!  Helper lemmas about the stable-sort model. -/

theorem mem_jsSortInsert {α : Type} {le : α → α → Bool} {a x : α} :
    ∀ {l : List α}, x ∈ jsSortInsert le a l ↔ x = a ∨ x ∈ l := by
  intro l
  induction l with
  | nil => simp [jsSortInsert]
  | cons b bs ih =>
    simp only [jsSortInsert]
    split
    · simp [List.mem_cons]
    · simp only [List.mem_cons, ih]
      tauto

theorem mem_jsSort {α : Type} {le : α → α → Bool} {x : α} :
    ∀ {l : List α}, x ∈ jsSort le l ↔ x ∈ l := by
  intro l
  induction l with
  | nil => simp [jsSort]
  | cons b bs ih =>
    simp only [jsSort, mem_jsSortInsert, ih, List.mem_cons]

theorem pairwise_jsSortInsert {α : Type} (le : α → α → Bool)
    (htotal : ∀ a b, le a b = true ∨ le b a = true)
    (htrans : ∀ a b c, le a b = true → le b c = true → le a c = true)
    (a : α) :
    ∀ {l : List α}, l.Pairwise (fun x y => le x y = true) →
      (jsSortInsert le a l).Pairwise (fun x y => le x y = true) := by
  intro l
  induction l with
  | nil =>
    intro _
    simp [jsSortInsert]
  | cons b bs ih =>
    intro h
    rw [List.pairwise_cons] at h
    obtain ⟨hb, hbs⟩ := h
    simp only [jsSortInsert]
    split
    · rename_i hab
      refine List.pairwise_cons.mpr ⟨?_, List.pairwise_cons.mpr ⟨hb, hbs⟩⟩
      intro x hx
      rcases List.mem_cons.mp hx with rfl | hx
      · exact hab
      · exact htrans a b x hab (hb x hx)
    · rename_i hab
      refine List.pairwise_cons.mpr ⟨?_, ih hbs⟩
      intro x hx
      rcases mem_jsSortInsert.mp hx with rfl | hx
      · rcases htotal x b with h1 | h1
        · exact absurd h1 hab
        · exact h1
      · exact hb x hx

theorem pairwise_jsSort {α : Type} (le : α → α → Bool)
    (htotal : ∀ a b, le a b = true ∨ le b a = true)
    (htrans : ∀ a b c, le a b = true → le b c = true → le a c = true) :
    ∀ (l : List α), (jsSort le l).Pairwise (fun x y => le x y = true) := by
  intro l
  induction l with
  | nil => simp [jsSort]
  | cons b bs ih =>
    exact pairwise_jsSortInsert le htotal htrans b ih

/-- Projecting the built element out of a filterMap-over-Option map recovers
the filter by definedness; shared shape of the two isolation arguments. -/
theorem map_of_filterMap_someMap {β γ σ : Type} (f : β → Option σ) (g : β → σ → γ)
    (pr : γ → β) (hpr : ∀ b s, pr (g b s) = b) :
    ∀ l : List β,
      (l.filterMap (fun b => (f b).map (g b))).map pr =
        l.filter (fun b => (f b).isSome) := by
  intro l
  induction l with
  | nil => simp
  | cons b bs ih =>
    cases h : f b with
    | none => simp [List.filterMap_cons, List.filter_cons, h, ih]
    | some s => simp [List.filterMap_cons, List.filter_cons, h, ih, hpr]

/-- Exact day-multiples divide exactly under the ceiling division. -/
theorem ceilDiv_mul_msPerDay (k : Int) : ceilDiv (k * msPerDay) msPerDay = k := by
  unfold ceilDiv msPerDay
  have h : -(k * (86400000 : Int)) = (-k) * 86400000 := by ring
  rw [h, Int.mul_fdiv_cancel _ (by norm_num)]
  ring

/-- Monotonicity of the revenue band for truthy (nonzero) estimates. -/
theorem prescreenRevenueScore_mono {r₁ r₂ : ℚ} (h₁ : r₁ ≠ 0) (h₂ : r₂ ≠ 0)
    (hle : r₁ ≤ r₂) :
    prescreenRevenueScore (some r₁) ≤ prescreenRevenueScore (some r₂) := by
  simp only [prescreenRevenueScore]
  rw [if_neg h₁, if_neg h₂]
  split_ifs <;> first | omega | linarith

/-- Properties of the final filter-sort-truncate stage of the pipeline, for
an arbitrary enhanced list. -/
theorem qualifiedStage_props (L : List EnhancedOpportunity) :
    ((jsSort qualityLe
        ((L.filter (fun o => o.volatilityData.isSome)).filter
          (fun o => decide (5 < o.qualityScore)))).take 5).length ≤ 5 ∧
    ((jsSort qualityLe
        ((L.filter (fun o => o.volatilityData.isSome)).filter
          (fun o => decide (5 < o.qualityScore)))).take 5).all
      (fun o => o.volatilityData.isSome && decide (5 < o.qualityScore)) = true ∧
    ((jsSort qualityLe
        ((L.filter (fun o => o.volatilityData.isSome)).filter
          (fun o => decide (5 < o.qualityScore)))).take 5).Pairwise
      (fun a b => b.qualityScore ≤ a.qualityScore) := by
  refine ⟨List.length_take_le 5 _, ?_, ?_⟩
  · rw [List.all_eq_true]
    intro o ho
    have h1 := List.take_subset 5 _ ho
    rw [mem_jsSort] at h1
    obtain ⟨h2, hq⟩ := List.mem_filter.mp h1
    obtain ⟨_, hp⟩ := List.mem_filter.mp h2
    rw [Bool.and_eq_true]
    exact ⟨hp, hq⟩
  · have hs := pairwise_jsSort qualityLe
      (by
        intro a b
        simp only [qualityLe, decide_eq_true_eq]
        omega)
      (by
        intro a b c
        simp only [qualityLe, decide_eq_true_eq]
        omega)
      ((L.filter (fun o => o.volatilityData.isSome)).filter
        (fun o => decide (5 < o.qualityScore)))
    have hs' : (jsSort qualityLe
        ((L.filter (fun o => o.volatilityData.isSome)).filter
          (fun o => decide (5 < o.qualityScore)))).Pairwise
        (fun a b => b.qualityScore ≤ a.qualityScore) := by
      refine hs.imp ?_
      intro a b h
      simpa [qualityLe, decide_eq_true_eq] using h
    exact List.Pairwise.sublist (List.take_sublist 5 _) hs'

/-- C1: evaluation of the request loop at the failing input.  With the
default budget `retries = 3` and every fetch answering HTTP 401 Unauthorized
(a non-retryable status), the call does fail with an error carrying the
status code and status text, but the fetch is issued four times, not once:
the non-retryable throw is raised inside the `try` block and the `catch`
block retries it while attempts remain, contradicting the claim (and the
code's own comments and test comments, which state that a 401 fails
immediately without retry). -/
theorem makeRequest_unauthorized_retried_four_times :
    makeRequest fetches401 3 =
      (Except.error (RequestError.httpStatus 401 "Unauthorized"), 4) := rfl

/-- C2: for every run of the pipeline and all upstream calendar, volatility
and scoring inputs, the returned list has at most five elements, every
element has a present `volatilityData` and a `qualityScore` strictly greater
than five, and the list is sorted in descending order of `qualityScore`. -/
theorem getEarningsOpportunities_output_invariants
    (stockUniverse : List String) (nowMs now2Ms : Int)
    (calendar : List CalendarEvent)
    (bulkVolatility : String → Option VolatilityData)
    (calculateVolatilityScore : Option VolatilityData → ℚ) :
    (getEarningsOpportunities stockUniverse nowMs now2Ms calendar
        bulkVolatility calculateVolatilityScore).length ≤ 5 ∧
    (getEarningsOpportunities stockUniverse nowMs now2Ms calendar
        bulkVolatility calculateVolatilityScore).all
      (fun o => o.volatilityData.isSome && decide (5 < o.qualityScore)) = true ∧
    (getEarningsOpportunities stockUniverse nowMs now2Ms calendar
        bulkVolatility calculateVolatilityScore).Pairwise
      (fun a b => b.qualityScore ≤ a.qualityScore) := by
  simp only [getEarningsOpportunities]
  split
  · simp
  · exact qualifiedStage_props _

/-- C3 counterexample: the claim fails as stated.  With `daysToEarnings` and
`hour` fixed, the event with the higher revenue estimate `1` scores strictly
less than the event with revenue estimate `0`, because the JS truthiness
guard sends a zero estimate to the neutral branch worth `5` while a tiny
nonzero estimate earns only `3`. -/
theorem calculatePrescreenScore_revenue_not_monotone :
    eventRevZero.revenueEstimate = some 0 ∧
    eventRevOne.revenueEstimate = some 1 ∧
    eventRevZero.hour = eventRevOne.hour ∧
    calculatePrescreenScore eventRevOne 14 < calculatePrescreenScore eventRevZero 14 := by
  refine ⟨rfl, rfl, rfl, ?_⟩
  decide

/-- C3 (amended): the prescreen score is deterministic, depending only on the
event's `revenueEstimate` and `hour` together with `daysToEarnings`; and,
holding `daysToEarnings` and `hour` fixed, between two events whose revenue
estimates are both present and nonzero (truthy), the higher-revenue event's
score is greater than or equal to the lower-revenue event's score.  The
amendment restricts the monotonicity to truthy estimates, which the zero
estimate of the counterexample forces. -/
theorem calculatePrescreenScore_deterministic_and_mono :
    (∀ (e₁ e₂ : CalendarEvent) (d : Int),
        e₁.revenueEstimate = e₂.revenueEstimate → e₁.hour = e₂.hour →
        calculatePrescreenScore e₁ d = calculatePrescreenScore e₂ d) ∧
    (∀ (e₁ e₂ : CalendarEvent) (d : Int) (r₁ r₂ : ℚ),
        e₁.revenueEstimate = some r₁ → e₂.revenueEstimate = some r₂ →
        r₁ ≠ 0 → r₂ ≠ 0 → e₁.hour = e₂.hour → r₁ ≤ r₂ →
        calculatePrescreenScore e₁ d ≤ calculatePrescreenScore e₂ d) := by
  constructor
  · intro e₁ e₂ d hrev hhour
    unfold calculatePrescreenScore
    rw [hrev, hhour]
  · intro e₁ e₂ d r₁ r₂ h₁ h₂ hn₁ hn₂ hhour hle
    unfold calculatePrescreenScore
    rw [h₁, h₂, hhour]
    have hmono := prescreenRevenueScore_mono hn₁ hn₂ hle
    exact Nat.add_le_add_right (Nat.add_le_add_right hmono _) _

/-- C3 witness: the amended monotonicity applied to a concrete mid-cap and
mega-cap pair. -/
theorem calculatePrescreenScore_mono_witness :
    eventRevMid.revenueEstimate = some 2000000000 ∧
    eventRevLarge.revenueEstimate = some 20000000000 ∧
    (2000000000 : ℚ) ≠ 0 ∧ (20000000000 : ℚ) ≠ 0 ∧
    eventRevMid.hour = eventRevLarge.hour ∧
    (2000000000 : ℚ) ≤ 20000000000 ∧
    calculatePrescreenScore eventRevMid 10 ≤ calculatePrescreenScore eventRevLarge 10 :=
  ⟨rfl, rfl, by decide, by decide, rfl, by decide,
    calculatePrescreenScore_deterministic_and_mono.2 eventRevMid eventRevLarge 10
      2000000000 20000000000 rfl rfl (by decide) (by decide) rfl (by decide)⟩

/-- C4: in batch mode the entries of the result are exactly the opportunities
whose own delimiter regex matches the reply — so a missing delimiter drops
only that opportunity and every other opportunity whose delimiter is present
still yields an Analysis entry — and in fallback mode the entries are exactly
the opportunities whose own call-and-parse succeeds; in neither mode does one
subject's failure block another subject's inclusion. -/
theorem batch_and_fallback_isolation :
    (∀ (raw : List Char) (opps : List EnhancedOpportunity),
        (parseBatchResponse raw opps).map BatchEntry.opportunity =
          opps.filter (fun o => (findSymbolSection raw o.symbol).isSome)) ∧
    (∀ (singleAnalysis : EnhancedOpportunity → Option Analysis)
        (opps : List EnhancedOpportunity),
        (fallbackAnalyses singleAnalysis opps).map Prod.fst =
          opps.filter (fun o => (singleAnalysis o).isSome)) := by
  constructor
  · intro raw opps
    exact map_of_filterMap_someMap (fun o => findSymbolSection raw o.symbol)
      (fun o slice =>
        { opportunity := o, analysis := parseAnalysisResponse (jsTrim slice) o.symbol })
      BatchEntry.opportunity (fun _ _ => rfl) opps
  · intro singleAnalysis opps
    exact map_of_filterMap_someMap singleAnalysis (fun o a => (o, a)) Prod.fst
      (fun _ _ => rfl) opps

/-- C5: the pipeline's time-window filter keeps exactly the events whose
ceiling day distance lies in `[1, 45]`; an event exactly zero days out and
one exactly forty-six days out are excluded, while events exactly one and
exactly forty-five days out are included. -/
theorem time_window_filter_characterization :
    (∀ (nowMs : Int) (events : List CalendarEvent) (e : CalendarEvent),
        e ∈ events.filter (inTimeWindow nowMs) ↔
          e ∈ events ∧ 1 ≤ daysToEarningsFrom nowMs e ∧ daysToEarningsFrom nowMs e ≤ 45) ∧
    (∀ (nowMs : Int) (e : CalendarEvent), e.date = nowMs →
        inTimeWindow nowMs e = false) ∧
    (∀ (nowMs : Int) (e : CalendarEvent), e.date = nowMs + 1 * msPerDay →
        inTimeWindow nowMs e = true) ∧
    (∀ (nowMs : Int) (e : CalendarEvent), e.date = nowMs + 45 * msPerDay →
        inTimeWindow nowMs e = true) ∧
    (∀ (nowMs : Int) (e : CalendarEvent), e.date = nowMs + 46 * msPerDay →
        inTimeWindow nowMs e = false) := by
  have key : ∀ (nowMs : Int) (e : CalendarEvent) (k : Int),
      e.date = nowMs + k * msPerDay → daysToEarningsFrom nowMs e = k := by
    intro nowMs e k h
    unfold daysToEarningsFrom
    rw [h]
    have h2 : nowMs + k * msPerDay - nowMs = k * msPerDay := by ring
    rw [h2, ceilDiv_mul_msPerDay]
  refine ⟨?_, ?_, ?_, ?_, ?_⟩
  · intro nowMs events e
    rw [List.mem_filter]
    simp only [inTimeWindow, decide_eq_true_eq]
  · intro nowMs e h
    have hk := key nowMs e 0 (by rw [h]; ring)
    simp only [inTimeWindow]
    rw [hk]
    decide
  · intro nowMs e h
    have hk := key nowMs e 1 h
    simp only [inTimeWindow]
    rw [hk]
    decide
  · intro nowMs e h
    have hk := key nowMs e 45 h
    simp only [inTimeWindow]
    rw [hk]
    decide
  · intro nowMs e h
    have hk := key nowMs e 46 h
    simp only [inTimeWindow]
    rw [hk]
    decide

/-- C5 witness: an event dated exactly one day after the reference instant is
kept by the time-window filter. -/
theorem time_window_filter_witness :
    eventOneDayOut.date = 0 + 1 * msPerDay ∧ inTimeWindow 0 eventOneDayOut = true :=
  ⟨by decide, time_window_filter_characterization.2.2.1 0 eventOneDayOut (by decide)⟩

/-- C6: the market-context probe is a total function of the fetch outcome
(never throws); any fetch error or non-ok response yields the null, unknown
context; on a successful response the quote value is classified by the
threshold chain, so every value in the closed interval from fifteen to twenty
classifies as normal. -/
theorem getMarketContext_regime_classification :
    (∀ q : QuoteFetchOutcome,
        q = QuoteFetchOutcome.netError ∨ q = QuoteFetchOutcome.httpFail →
        getMarketContext q = { vix := none, marketRegime := "unknown" }) ∧
    (∀ v : ℚ,
        getMarketContext (QuoteFetchOutcome.success (some v)) =
          { vix := some v,
            marketRegime :=
              if v > 30 then "high-volatility"
              else if v > 20 then "elevated-volatility"
              else if v < 15 then "low-volatility"
              else "normal" }) ∧
    (∀ v : ℚ, 15 ≤ v → v ≤ 20 →
        (getMarketContext (QuoteFetchOutcome.success (some v))).marketRegime = "normal") := by
  refine ⟨?_, ?_, ?_⟩
  · rintro q (rfl | rfl) <;> rfl
  · intro v
    rfl
  · intro v h1 h2
    show classifyRegime (some v) = "normal"
    simp only [classifyRegime]
    rw [if_neg (by linarith), if_neg (by linarith), if_neg (by linarith)]

/-- C6 witness: the classification applied at the network-error outcome and
at the concrete quote value seventeen. -/
theorem getMarketContext_regime_witness :
    (15 : ℚ) ≤ 17 ∧ (17 : ℚ) ≤ 20 ∧
    getMarketContext QuoteFetchOutcome.netError = { vix := none, marketRegime := "unknown" } ∧
    (getMarketContext (QuoteFetchOutcome.success (some 17))).marketRegime = "normal" :=
  ⟨by decide, by decide,
    getMarketContext_regime_classification.1 QuoteFetchOutcome.netError (Or.inl rfl),
    getMarketContext_regime_classification.2.2 17 (by decide) (by decide)⟩

/-- C7: on the concrete reply text, the response parser extracts sentiment
score eight, recommendation NEUTRAL, and exactly one strategy named
Iron Condor. -/
theorem parseAnalysisResponse_sample :
    (parseAnalysisResponse sampleReply.data "AAPL").sentimentScore = some 8 ∧
    (parseAnalysisResponse sampleReply.data "AAPL").recommendation = "NEUTRAL" ∧
    (parseAnalysisResponse sampleReply.data "AAPL").strategies.map Strategy.name =
      ["Iron Condor"] := by
  refine ⟨?_, ?_, ?_⟩ <;> rfl

/-- C8: on the concrete invalid analysis the validator reports exactly the
two issues, no strategies provided and inconsistent sentiment and
recommendation, with `isValid` false; and for every input, `isValid` is true
exactly when the issues list is empty. -/
theorem validateAnalysis_sample_and_isValid_iff :
    validateAnalysis sampleInvalidAnalysis =
      { isValid := false,
        issues := ["No strategies provided", "Inconsistent sentiment and recommendation"] } ∧
    (∀ a : Analysis, (validateAnalysis a).isValid = true ↔ (validateAnalysis a).issues = []) := by
  constructor
  · rfl
  · intro a
    show ((validateAnalysis a).issues).isEmpty = true ↔ (validateAnalysis a).issues = []
    exact List.isEmpty_iff

/-- C9: an event whose revenue estimate equals zero gets the neutral size
sub-score five, the same as an event with the estimate absent, not the three
of the smallest-revenue band. -/
theorem prescreen_zero_revenue_neutral :
    (∀ (e : CalendarEvent) (d : Int), e.revenueEstimate = some 0 →
        calculatePrescreenScore e d =
          calculatePrescreenScore { e with revenueEstimate := none } d) ∧
    prescreenRevenueScore (some 0) = 5 ∧
    prescreenRevenueScore none = 5 ∧
    prescreenRevenueScore (some 1) = 3 := by
  refine ⟨?_, by decide, by decide, by decide⟩
  intro e d h
  have hrev : prescreenRevenueScore (some 0) = prescreenRevenueScore none := by decide
  unfold calculatePrescreenScore
  rw [h]
  simp [hrev]

/-- C9 witness: the zero-revenue equality applied at the concrete event. -/
theorem prescreen_zero_revenue_witness :
    eventRevZero.revenueEstimate = some 0 ∧
    calculatePrescreenScore eventRevZero 14 =
      calculatePrescreenScore { eventRevZero with revenueEstimate := none } 14 :=
  ⟨rfl, prescreen_zero_revenue_neutral.1 eventRevZero 14 rfl⟩

/-- C10: a successful calendar response whose body lacks the
`earningsCalendar` field (absent, null or otherwise falsy, folded into
`none`) makes `getEarningsCalendar` return the empty list with the same fetch
count, rather than failing. -/
theorem getEarningsCalendar_missing_field_empty
    (fetches : Nat → FetchOutcome CalendarResponse) (body : CalendarResponse) (n : Nat)
    (hok : makeRequest fetches 3 = (Except.ok body, n))
    (hmissing : body.earningsCalendar = none) :
    getEarningsCalendar fetches = (Except.ok [], n) := by
  simp only [getEarningsCalendar]
  rw [hok]
  simp [Except.map, hmissing]

/-- C10 witness: the empty-list result at a concrete fetch sequence whose
first attempt succeeds with a body lacking the field. -/
theorem getEarningsCalendar_missing_field_witness :
    makeRequest fetchesCalNone 3 = (Except.ok { earningsCalendar := none }, 1) ∧
    ({ earningsCalendar := none } : CalendarResponse).earningsCalendar = none ∧
    getEarningsCalendar fetchesCalNone = (Except.ok [], 1) :=
  ⟨rfl, rfl,
    getEarningsCalendar_missing_field_empty fetchesCalNone
      { earningsCalendar := none } 1 rfl rfl⟩

end OptionsInsight
